import Mathlib

/-!
# Shallow embedding of the bookmeta core

This file embeds the core of the `bookmeta-personal` repository:

* `app/nlp.py` — text cleaning, the rule-based title/author splitter and the
  NER arbitration logic of `split_title_author`;
* `app/classify.py` — the CLC classifier `classify_clc` with its CIP parse,
  optional LLM hook and keyword-scoring fallback;
* `app/pipeline.py` — `_get_or_create_book_by_detail`, the provider loop of
  `search_and_ingest`, the cover / classification / provenance writes;
* the `Book` and `Source` tables of `app/db.py`, as a functional store.

Modelling conventions:

* Python `str` is `String` (sequences of code points); all operations that
  must be evaluated by the kernel are implemented over `List Char`.
* Python `None` / optional values are `Option`; Python truthiness of an
  optional string (`if x:`) is `x ≠ None ∧ x ≠ ""`, of an optional int is
  `x ≠ None ∧ x ≠ 0`.
* Python floats carrying scores and confidences are represented as exact
  integers scaled by 100 (`0.95 ↦ 95`, keyword weights `1.0 ↦ 100`,
  `1.2 ↦ 120`, thresholds `2 ↦ 200`, `4 ↦ 400`).  Every score reachable in
  this code is a sum of 1.0s and 1.2s, and every branch in the source
  compares such sums against 0, 2 and 4: for those magnitudes binary
  floating point addition and comparison agree with exact decimal
  arithmetic, so the scaled-integer model decides every branch exactly as
  the Python floats do.
* Network effects (provider fetches, the cover download, the optional LLM
  call, the optional NER backend) are passed in as explicit function or
  `Option` arguments at exactly the call sites where the Python code
  performs I/O; "backend absent / call failed" is `none`.
* Python regular expressions used by the code are implemented literally,
  with the leftmost-match, lazy/greedy backtracking order of the `re`
  module for the concrete patterns involved.
-/

namespace BookMeta

/-! ## Python string primitives -/

/-- Python whitespace (`\s`, `str.strip`): ASCII whitespace plus the
full-width space U+3000 and NBSP — the whitespace characters reachable in
this code base. -/
def pyWs (c : Char) : Bool :=
  c == ' ' || c == '\t' || c == '\n' || c == '\r' ||
  c.toNat == 11 || c.toNat == 12 || c.toNat == 0x3000 || c.toNat == 0xA0

/-- The `str.strip()` on a character list. -/
def trimWs (l : List Char) : List Char :=
  ((l.dropWhile pyWs).reverse.dropWhile pyWs).reverse

/-- The `str.strip()`. -/
def pyStrip (s : String) : String := String.mk (trimWs s.toList)

/-- The `str.strip(chars)`: strip any of the given characters from both ends. -/
def stripCharsL (set : List Char) (l : List Char) : List Char :=
  ((l.dropWhile (fun c => set.contains c)).reverse.dropWhile
    (fun c => set.contains c)).reverse

/-- The `str.strip(chars)` on `String`. -/
def stripCharsS (set : List Char) (s : String) : String :=
  String.mk (stripCharsL set s.toList)

/-- The `re.sub(r'\s+', ' ', s)`: every maximal whitespace run becomes one
space.  Fuel is the length of the list; each step consumes at least one
character, so `collapse1` below never exhausts it. -/
def collapse1Aux : Nat → List Char → List Char
  | 0, l => l
  | _, [] => []
  | n + 1, c :: rest =>
    if pyWs c then ' ' :: collapse1Aux n (rest.dropWhile pyWs)
    else c :: collapse1Aux n rest

def collapse1 (l : List Char) : List Char := collapse1Aux l.length l

/-- The `re.sub(r'\s{2,}', ' ', s)`: only runs of length ≥ 2 are collapsed; a
lone whitespace character is kept as is. -/
def collapse2Aux : Nat → List Char → List Char
  | 0, l => l
  | _, [] => []
  | n + 1, c :: rest =>
    if pyWs c then
      let run := rest.takeWhile pyWs
      if run.isEmpty then c :: collapse2Aux n rest
      else ' ' :: collapse2Aux n (rest.drop run.length)
    else c :: collapse2Aux n rest

def collapse2 (l : List Char) : List Char := collapse2Aux l.length l

/-- The `needle` is a prefix of `hay`. -/
def startsWithL : List Char → List Char → Bool
  | [], _ => true
  | _ :: _, [] => false
  | a :: xs, b :: ys => a == b && startsWithL xs ys

/-- Python `needle in hay` (substring containment; the empty needle is
contained in everything). -/
def containsSub (needle : List Char) : List Char → Bool
  | [] => startsWithL needle []
  | c :: rest => startsWithL needle (c :: rest) || containsSub needle rest

/-- The `l` ends with `suf`. -/
def endsWithL (suf l : List Char) : Bool :=
  startsWithL suf.reverse l.reverse

/-- The `str.endswith` for `String`s. -/
def endsWithS (suf s : String) : Bool := endsWithL suf.toList s.toList

/-- Python `s.split()` (split on whitespace runs, dropping empties).  Fuel
as in `collapse1Aux`. -/
def pySplitAux : Nat → List Char → List (List Char)
  | 0, _ => []
  | n + 1, l =>
    let t := l.dropWhile pyWs
    if t.isEmpty then []
    else (t.takeWhile fun c => !pyWs c) ::
      pySplitAux n (t.dropWhile fun c => !pyWs c)

def pySplitWs (l : List Char) : List (List Char) := pySplitAux (l.length + 1) l

/-- Python `s.split(",")`. -/
def splitCommaGo : List Char → List Char → List (List Char)
  | [], acc => [acc.reverse]
  | c :: rest, acc =>
    if c == ',' then acc.reverse :: splitCommaGo rest []
    else splitCommaGo rest (c :: acc)

def splitComma (s : String) : List String :=
  (splitCommaGo s.toList []).map String.mk

/-- The `app/utils.py` `normalize_whitespace`: collapse all whitespace runs to a
single space, then strip. -/
def normalize_whitespace (s : String) : String :=
  String.mk (trimWs (collapse1 s.toList))

/-- Truthiness of an optional Python string (`if x:`). -/
def pyTruthyS (o : Option String) : Bool := o.getD "" != ""

/-- Truthiness of an optional Python int (`if x:`; `0` is falsy). -/
def pyTruthyN (o : Option Nat) : Bool := o.getD 0 != 0

/-! ## `app/nlp.py` — cleaning and the rule-based splitter -/

/-- Opening brackets of the `BRACKETS` pattern `[【\[\(（]`. -/
def isOpenB (c : Char) : Bool := c == '【' || c == '[' || c == '(' || c == '（'

/-- Closing brackets of the `BRACKETS` pattern `[】\]\)）]`. -/
def isCloseB (c : Char) : Bool := c == '】' || c == ']' || c == ')' || c == '）'

/-- For `re.sub(BRACKETS, '', s)`: from a position just after an opening
bracket, find the first closing bracket (the lazy `.*?` cannot cross a
newline) and return the remainder after it. -/
def findClose : List Char → Option (List Char)
  | [] => none
  | c :: rest =>
    if isCloseB c then some rest
    else if c == '\n' then none
    else findClose rest

/-- The `re.sub(BRACKETS, '', s)`: delete every non-overlapping
`<open>...<close>` span, scanning left to right.  An opening bracket with no
later closing bracket is kept verbatim, as `re.sub` does.  Fuel as in
`collapse1Aux` (every recursive call consumes at least one character). -/
def stripBracketsAux : Nat → List Char → List Char
  | 0, l => l
  | _, [] => []
  | n + 1, c :: rest =>
    if isOpenB c then
      match findClose rest with
      | some rest2 => stripBracketsAux n rest2
      | none => c :: stripBracketsAux n rest
    else c :: stripBracketsAux n rest

def stripBrackets (l : List Char) : List Char := stripBracketsAux l.length l

/-- The punctuation class of `re.sub(r'^\s*\d+[\.\、\)\-：:]\s*', '', s)`. -/
def ordPunct (c : Char) : Bool :=
  c == '.' || c == '、' || c == ')' || c == '-' || c == '：' || c == ':'

/-- The `re.sub(r'^\s*\d+[\.\、\)\-：:]\s*', '', s)`: strip a leading ordinal
marker ("1. ", "1、", "1) ", "1- ", "1:").  At most one replacement since
the pattern is anchored. -/
def stripOrd1 (l : List Char) : List Char :=
  let t1 := l.dropWhile pyWs
  let ds := t1.takeWhile Char.isDigit
  if ds.isEmpty then l
  else
    match t1.dropWhile Char.isDigit with
    | c :: t3 => if ordPunct c then t3.dropWhile pyWs else l
    | [] => l

/-- The `re.sub(r'^\s*\d+\s*\.\s*', '', s)`: the "4.  文明简史" variant. -/
def stripOrd2 (l : List Char) : List Char :=
  let t1 := l.dropWhile pyWs
  let ds := t1.takeWhile Char.isDigit
  if ds.isEmpty then l
  else
    match (t1.dropWhile Char.isDigit).dropWhile pyWs with
    | '.' :: t3 => t3.dropWhile pyWs
    | _ => l

/-- The single-character replacements of `clean_line`:
`+`, `/`, `、`, full-width space and tab become a plain space. -/
def replSep (c : Char) : Char :=
  if c == '+' || c == '/' || c == '、' || c == '　' || c == '\t' then ' ' else c

/-- The `app/nlp.py` `clean_line`. -/
def clean_line (s : String) : String :=
  let l0 := stripBrackets s.toList
  let l1 := stripOrd2 (stripOrd1 l0)
  let l2 := l1.map replSep
  String.mk (trimWs (collapse2 l2))

/-- The `app/nlp.py` `_dedup_authors`, inner loop.  Note that the source checks
`a.endswith(("著", "编", "译", "主编"))` but then strips exactly one
character (`a = a[:-1]`). -/
def dedupAuthorsGo (seen : List String) : List String → List String
  | [] => []
  | a :: rest =>
    let a1 := normalize_whitespace a
    if a1 == "" then dedupAuthorsGo seen rest
    else
      let a2 :=
        if endsWithS "著" a1 || endsWithS "编" a1 || endsWithS "译" a1 ||
            endsWithS "主编" a1 then
          String.mk a1.toList.dropLast
        else a1
      if seen.contains a2 then dedupAuthorsGo seen rest
      else a2 :: dedupAuthorsGo (a2 :: seen) rest

/-- The `app/nlp.py` `_dedup_authors`. -/
def dedup_authors (l : List String) : List String := dedupAuthorsGo [] l

/-- The separator class `[\s:：\-—·]` of the trailing-role-suffix pattern. -/
def sepClass1 (c : Char) : Bool :=
  pyWs c || c == ':' || c == '：' || c == '-' || c == '—' || c == '·'

/-- The alternatives of `AUTHOR_HINTS = (著|编|译|主编|等)$`. -/
def roleHints : List (List Char) := [['著'], ['编'], ['译'], ['主', '编'], ['等']]

/-- Greedy `([^\d]{1,30})` followed by a role hint and end of string: try
author-group lengths from `n` down to `1` (the backtracking order of the
greedy quantifier) and succeed when the remainder is exactly a role hint. -/
def tryG2 (r : List Char) : Nat → Option (List Char)
  | 0 => none
  | n + 1 =>
    let g2 := r.take (n + 1)
    if g2.all (fun c => !c.isDigit) && roleHints.contains (r.drop (n + 1)) then
      some g2
    else tryG2 r n

/-- Greedy `[\s:：\-—·]+`: try separator-run lengths from `k` down to `1`,
then match the author group on the remainder. -/
def trySeps (rest : List Char) : Nat → Option (List Char)
  | 0 => none
  | k + 1 =>
    let r := rest.drop (k + 1)
    match tryG2 r (min 30 r.length) with
    | some g2 => some g2
    | none => trySeps rest k

/-- Try the tail `[\s:：\-—·]+([^\d]{1,30})(著|编|译|主编|等)$` at the
current position. -/
def tryTail1 (rest : List Char) : Option (List Char) :=
  trySeps rest (rest.takeWhile sepClass1).length

/-- The `re.search(r'^(.*?)[\s:：\-—·]+([^\d]{1,30})(著|编|译|主编|等)$', s)`:
the lazy `(.*?)` extends one character at a time (never across a newline);
at each position the tail is attempted.  Returns `(group 1, group 2)`. -/
def pat1Aux : Nat → List Char → List Char → Option (List Char × List Char)
  | 0, _, _ => none
  | n + 1, acc, rest =>
    match tryTail1 rest with
    | some g2 => some (acc, g2)
    | none =>
      match rest with
      | [] => none
      | c :: rest2 =>
        if c == '\n' then none else pat1Aux n (acc ++ [c]) rest2

def pat1Match (l : List Char) : Option (List Char × List Char) :=
  pat1Aux (l.length + 1) [] l

/-- The separator class `[\s\(（]` of the parenthetical-name pattern. -/
def sepClass2 (c : Char) : Bool := pyWs c || c == '(' || c == '（'

/-- The closing class `[\)）]`. -/
def closeClass2 (c : Char) : Bool := c == ')' || c == '）'

/-- The `re.search(r'^(.*?)[\s\(（](.*?)[\)）]$', s)`: the closing bracket is
forced to be the final character, so group 2 is everything between the
separator and it; the lazy group 1 stops at the first separator position
for which the whole tail matches. -/
def pat2Aux : Nat → List Char → List Char → Option (List Char × List Char)
  | 0, _, _ => none
  | n + 1, acc, rest =>
    match rest with
    | [] => none
    | c :: rest2 =>
      let tailOk :=
        match rest2.getLast? with
        | some lc => closeClass2 lc && rest2.dropLast.all (fun c2 => c2 != '\n')
        | none => false
      if sepClass2 c && tailOk then some (acc, rest2.dropLast)
      else if c == '\n' then none
      else pat2Aux n (acc ++ [c]) rest2

def pat2Match (l : List Char) : Option (List Char × List Char) :=
  pat2Aux (l.length + 1) [] l

/-- The whitespace-split fallback (step 3 of `_heuristic_title_author`). -/
def pat3Split (s : String) : String × List String :=
  let parts := pySplitWs s.toList
  match parts.getLast? with
  | some last =>
    if decide (parts.length ≥ 2) && decide (last.length ≤ 12) then
      (String.intercalate " " (parts.dropLast.map String.mk),
       dedup_authors [String.mk last])
    else (s, [])
  | none => (s, [])

/-- The strip set of `m.group(1).strip(' -—·:：')`. -/
def titleStripSet : List Char := [' ', '-', '—', '·', ':', '：']

/-- The `app/nlp.py` `_heuristic_title_author`. -/
def heuristic_title_author (s0 : String) : String × List String :=
  let s := clean_line s0
  let cs := s.toList
  match pat1Match cs with
  | some (g1, g2) =>
    (stripCharsS titleStripSet (String.mk g1),
     dedup_authors [String.mk (trimWs g2)])
  | none =>
    match pat2Match cs with
    | some (g1, g2) =>
      if g2.length ≤ 12 then (String.mk g1, dedup_authors [String.mk g2])
      else pat3Split s
    | none => pat3Split s

/-- The result shape of `_extract_title_author_via_ner`
(`{'title': …, 'authors': […], 'confidence': 0..1}`); the confidence is in
hundredths. -/
structure NerRes where
  title : Option String
  authors : List String
  confidence : Nat
deriving DecidableEq, Repr

/-- The `app/nlp.py` `_extract_title_author_via_ner`: clean the text, return the
zero result on empty text or when no backend is available, otherwise defer
to the loaded backend.  The backend (`hanlp`/`ltp`/`spacy`, loaded lazily)
is abstracted as a function argument. -/
def extract_via_ner (backend : Option (String → NerRes)) (s : String) : NerRes :=
  let text := clean_line s
  if text == "" then ⟨none, [], 0⟩
  else
    match backend with
    | none => ⟨none, [], 0⟩
    | some f => f text

/-- The strip set of `.strip(" 《》[]（）()")` in `split_title_author`. -/
def bookStripSet : List Char := [' ', '《', '》', '[', ']', '（', '）', '(', ')']

/-- The `re.search(r'(著|编|译|主编)$', t)` of `_title_score`. -/
def roleSuffixEnd (t : String) : Bool :=
  endsWithS "著" t || endsWithS "编" t || endsWithS "译" t || endsWithS "主编" t

/-- The title-ish token set of `_title_score`. -/
def titleTokens : List String :=
  ["研究", "简史", "教程", "导论", "原理", "方法", "文明", "世界", "社会",
   "历史", "算法", "原本", "文学", "文化"]

def hasTitleToken (t : String) : Bool :=
  titleTokens.any fun k => containsSub k.toList t.toList

/-- The `split_title_author`'s inner `_title_score`. -/
def title_score (t0 : String) : Int :=
  let t := pyStrip t0
  (t.toList.length : Int) - (if roleSuffixEnd t then 2 else 0) +
    (if hasTitleToken t then 2 else 0)

/-- The `max(candidates, key=_title_score)`: Python `max` keeps the first
maximal element. -/
def bestBy (c : String) (cs : List String) : String :=
  cs.foldl (fun best x => if title_score x > title_score best then x else best) c

/-- The `app/nlp.py` `split_title_author`.  `backend = none` is the state in
which no NER backend could be loaded (the normal state in a bare
deployment). -/
def split_title_author (backend : Option (String → NerRes)) (s0 : String) :
    String × List String :=
  let s := normalize_whitespace s0
  if s == "" then ("", [])
  else
    let cleaned := clean_line s
    let nr := extract_via_ner backend cleaned
    let nerTitle := stripCharsS bookStripSet (nr.title.getD "")
    let nerAuthors := dedup_authors nr.authors
    let rp := heuristic_title_author cleaned
    let ruleTitle := stripCharsS bookStripSet rp.1
    let ruleAuthors := dedup_authors rp.2
    if nerAuthors ≠ [] ∧ nr.confidence ≥ 60 then
      let candidates := [nerTitle, ruleTitle].filter (fun t => t != "")
      let title :=
        match candidates with
        | [] => if ruleTitle != "" then ruleTitle else nerTitle
        | c :: cs => bestBy c cs
      ((if title != "" then title else cleaned), nerAuthors)
    else (ruleTitle, ruleAuthors)

end BookMeta

namespace BookMeta

/-! ## `app/classify.py` — the CLC classifier

Confidences and scores are integers in hundredths (`0.95 ↦ 95`,
keyword weight `1.0 ↦ 100`, `1.2 ↦ 120`). -/

/-- The `CLC_LABELS`, in the source's dictionary (insertion) order. -/
def CLC_LABELS : List (String × String) :=
  [("A", "马克思主义、列宁主义、毛泽东思想、邓小平理论"),
   ("B", "哲学、宗教"),
   ("C", "社会科学总论"),
   ("D", "政治、法律"),
   ("E", "军事"),
   ("F", "经济"),
   ("G", "文化、科学、教育、体育"),
   ("H", "语言、文字"),
   ("I", "文学"),
   ("J", "艺术"),
   ("K", "历史、地理"),
   ("N", "自然科学总论"),
   ("O", "数理科学和化学"),
   ("P", "天文学、地球科学"),
   ("Q", "生物科学"),
   ("R", "医药、卫生"),
   ("S", "农业科学"),
   ("T", "工业技术"),
   ("U", "交通运输"),
   ("V", "航空、航天"),
   ("X", "环境科学、安全科学"),
   ("Z", "综合性图书")]

/-- The `KEYWORDS`, in the source's dictionary (insertion) order — the same key
order as `CLC_LABELS`. -/
def KEYWORDS : List (String × List String) :=
  [("A", ["马克思", "列宁", "毛泽东", "邓小平", "社会主义理论"]),
   ("B", ["哲学", "形而上学", "伦理学", "宗教", "佛教", "基督教", "道教", "心灵"]),
   ("C", ["社会科学", "社会学", "调查研究方法", "统计年鉴", "社会问题", "公共管理"]),
   ("D", ["政治", "国际关系", "外交", "法学", "刑法", "民法", "行政法", "宪法"]),
   ("E", ["军事", "战争", "战略", "战术", "国防"]),
   ("F", ["经济", "金融", "管理学", "会计", "市场营销", "企业战略", "贸易", "宏观经济"]),
   ("G", ["教育学", "科普读物", "图书馆学", "文化研究", "体育", "博物馆"]),
   ("H", ["语言学", "语法", "汉语", "英语", "翻译", "词典", "语料库"]),
   ("I", ["文学", "小说", "诗歌", "散文", "戏剧", "文学史", "文论", "名著"]),
   ("J", ["艺术", "绘画", "雕塑", "摄影", "音乐", "电影", "戏曲", "设计"]),
   ("K", ["历史", "通史", "中国史", "世界史", "地理", "考古", "文明史"]),
   ("N", ["自然科学", "科研方法", "科学思想史"]),
   ("O", ["数学", "物理", "化学", "拓扑", "量子", "代数", "微积分"]),
   ("P", ["天文学", "地质", "地理信息", "气象", "地震", "地图学"]),
   ("Q", ["生物", "遗传", "细胞", "生态", "神经科学", "生物化学"]),
   ("R", ["医学", "临床", "解剖", "药学", "护理", "公共卫生", "疾病"]),
   ("S", ["农业", "作物", "畜牧", "林业", "渔业", "土壤"]),
   ("T", ["计算机", "算法", "软件工程", "人工智能", "深度学习", "网络", "电子",
          "机械", "材料", "工业", "自动化"]),
   ("U", ["交通", "铁路", "公路", "航运", "港口", "车辆工程"]),
   ("V", ["航空", "航天", "航天器", "火箭", "卫星"]),
   ("X", ["环境", "生态保护", "污染", "安全工程", "职业安全", "应急"]),
   ("Z", ["百科全书", "年鉴", "论文集", "综合", "工具书"])]

/-- The science/technology category set of `_score_by_keywords`
(`code in ("T", "O", "Q", "R", "P", "S", "X")`, weight 1.2 per hit). -/
def techCodes : List String := ["T", "O", "Q", "R", "P", "S", "X"]

/-- The `app/classify.py` `_normalize`: strip, replace `《》【】` by spaces,
collapse whitespace runs (no final strip in the source). -/
def classify_normalize (s : String) : String :=
  let t := trimWs s.toList
  let t2 := t.map fun c =>
    if c == '《' || c == '》' || c == '【' || c == '】' then ' ' else c
  String.mk (collapse1 t2)

/-- The `app/classify.py` `_score_by_keywords`: case-insensitive substring
hits, `1.2` (here `120`) per hit for the science/technology categories and
`1.0` (here `100`) otherwise.  The result is the `scores` dict as an
association list in `CLC_LABELS`-key order. -/
def score_by_keywords (text : String) : List (String × Nat) :=
  let lc := text.toList.map Char.toLower
  KEYWORDS.map fun p =>
    (p.1, p.2.foldl (fun acc kw =>
      if kw != "" && containsSub (kw.toList.map Char.toLower) lc then
        acc + (if techCodes.contains p.1 then 120 else 100)
      else acc) 0)

/-- The `app/classify.py` `_pick_best`: `max(scores, key=…)` keeps the first
key attaining the maximum, in dict iteration order. -/
def pick_best : List (String × Nat) → String × Nat
  | [] => ("Z", 0)
  | p :: rest => rest.foldl (fun best x => if x.2 > best.2 then x else best) p

/-- The `app/classify.py` `_label`. -/
def clcLabel (code : String) : String :=
  match CLC_LABELS.lookup (String.mk (code.toList.map Char.toUpper)) with
  | some l => l
  | none => "未知"

/-- The `[A-Z]` (applied after `.upper()`). -/
def isUpperAZ (c : Char) : Bool := 'A' ≤ c && c ≤ 'Z'

/-- The `[A-Z0-9]` (applied after `.upper()`). -/
def isAZ09 (c : Char) : Bool := isUpperAZ c || c.isDigit

/-- A word constituent for Python's `\b` (`\w`): ASCII alphanumerics and
underscore; all non-ASCII characters (CJK in this data) are also word
constituents, approximated here by code point ≥ 0x80.  The catalog numbers
this code handles are ASCII, where the approximation is exact. -/
def wordChar (c : Char) : Bool := c.isAlphanum || c == '_' || c.toNat ≥ 0x80

/-- The match of `_CIP_CLC_RE = \b([A-Z])([A-Z0-9]{0,2})(?:\.\d+)?` once the
leading letter has been found at a word boundary: the greedy middle group
takes up to two alphanumerics, then the optional decimal suffix matches
only if a dot followed by at least one digit comes immediately next. -/
def clcTake (c : Char) (rest : List Char) : List Char :=
  let mid := (rest.takeWhile isAZ09).take 2
  let rest2 := rest.drop mid.length
  let dec : List Char :=
    match rest2 with
    | '.' :: ds =>
      let digits := ds.takeWhile Char.isDigit
      if digits.isEmpty then [] else '.' :: digits
    | _ => []
  c :: (mid ++ dec)

/-- The `re.search` scan for `_CIP_CLC_RE`: find the leftmost uppercase letter
preceded by a non-word position, then take the greedy match there. -/
def clcSearch : List Char → Bool → Option (List Char)
  | [], _ => none
  | c :: rest, prevWord =>
    if !prevWord && isUpperAZ c then some (clcTake c rest)
    else clcSearch rest (wordChar c)

/-- The `app/classify.py` `_from_cip`: `None`/empty is falsy; otherwise search
`cip.upper()` for the CLC pattern and return the matched text. -/
def from_cip (cip : Option String) : Option String :=
  match cip with
  | none => none
  | some s =>
    if s == "" then none
    else (clcSearch (s.toList.map Char.toUpper) false).map String.mk

/-- The search blob of `classify_rule_based`:
`" ".join([_normalize(title), _normalize(",".join(authors or [])),
_normalize(summary or "")]).strip()`. -/
def clcBlob (title : String) (authors : List String) (summary : String) : String :=
  let t := classify_normalize title
  let a := classify_normalize (String.intercalate "," authors)
  let s := classify_normalize summary
  pyStrip (t ++ " " ++ a ++ " " ++ s)

/-- The `app/classify.py` `classify_rule_based`: `(code, label, confidence,
"rule")`, confidence in hundredths.  An empty blob short-circuits to
`("Z", label, 0.0, "rule")`. -/
def classify_rule_based (title : String) (authors : List String)
    (summary : String) : String × String × Nat × String :=
  let blob := clcBlob title authors summary
  if blob == "" then ("Z", clcLabel "Z", 0, "rule")
  else
    let best := pick_best (score_by_keywords blob)
    let conf : Nat :=
      if best.2 ≤ 0 then (if best.1 == "Z" then 50 else 55)
      else if best.2 < 200 then 65
      else if best.2 < 400 then 80
      else 92
    (best.1, clcLabel best.1, conf, "rule")

/-- The `app/classify.py` `classify_clc`.  The optional LLM classifier
(`classify_llm`) performs network I/O; its outcome is the `llmResult`
argument, `none` standing for every "no result" case (disabled, missing
API key, network or parse failure). -/
def classify_clc (title : String) (authors : List String) (summary : String)
    (cip : Option String) (llmResult : Option (String × String × Nat × String)) :
    String × String × Nat × String :=
  match from_cip cip with
  | some code => (code, clcLabel (String.mk (code.toList.take 1)), 95, "cip")
  | none =>
    match llmResult with
    | some r => r
    | none => classify_rule_based title authors summary

end BookMeta

namespace BookMeta

/-! ## `app/db.py` / `app/pipeline.py` — store, reconciliation, pipeline -/

/-- The `app/providers/base.py` `BookDetail`: `title` and `authors` are
required, everything else optional.  (`BookDetail` has no `url` attribute;
`getattr(detail, "url", "")` in the pipeline therefore yields `""`.) -/
structure Detail where
  title : String
  authors : List String
  publisher : Option String := none
  pub_year : Option Nat := none
  isbn : Option String := none
  edition : Option String := none
  pages : Option Nat := none
  summary : Option String := none
  author_bio : Option String := none
  language : Option String := none
  cover_url : Option String := none
  cip : Option String := none
deriving DecidableEq, Repr

/-- The `app/db.py` `Book` (the `books` table), without the timestamp columns,
which no claim touches.  `isbn` carries a uniqueness constraint in the
schema. -/
structure Book where
  id : Nat
  title_std : String := ""
  authors_std : Option String := none
  publisher : Option String := none
  pub_year : Option Nat := none
  isbn : Option String := none
  edition : Option String := none
  pages : Option Nat := none
  summary : Option String := none
  author_bio : Option String := none
  language : Option String := none
  cover_path : Option String := none
  cip : Option String := none
  clc : Option String := none
deriving DecidableEq, Repr

/-- The `app/db.py` `Source` (the `sources` table): one provenance row.  The
`extracted` column stores `json.dumps(detail.__dict__)`; the serialization
is abstracted by storing the detail itself. -/
structure SourceRow where
  book_id : Nat
  site : String
  url : String
  extracted : Detail
deriving DecidableEq, Repr

/-- The persisted store: the `books` and `sources` tables plus the
autoincrement counter that `session.flush()` draws new ids from. -/
structure Store where
  books : List Book
  sources : List SourceRow
  nextId : Nat
deriving DecidableEq, Repr

/-- The `isbn = (d.isbn or "").strip() or None` at the top of
`_get_or_create_book_by_detail`. -/
def detailIsbn (d : Detail) : Option String :=
  let t := pyStrip (d.isbn.getD "")
  if t == "" then none else some t

/-- The "non-empty overwrites" block of `_get_or_create_book_by_detail`
(lines 74–94 of `app/pipeline.py`), applied to a found *or freshly created*
book: each field is overwritten exactly when the detail's value is truthy
(for `title`/`summary`/`author_bio`, truthy after `.strip()`); for `cip`,
`b.cip = d.cip or b.cip` under a truthy guard is `d.cip`.  The source
performs these ten conditional assignments one after another on the ORM
object; no assignment reads a field another one writes, so they are the
following simultaneous record update.  `isbn`, `cover_path`, `clc` and
`id` are not touched. -/
def applyOverwrites (d : Detail) (b : Book) : Book :=
  { b with
    title_std := if pyStrip d.title != "" then pyStrip d.title else b.title_std
    authors_std := if d.authors ≠ [] then
        some (String.intercalate "," d.authors) else b.authors_std
    publisher := if pyTruthyS d.publisher then d.publisher else b.publisher
    pub_year := if pyTruthyN d.pub_year then d.pub_year else b.pub_year
    edition := if pyTruthyS d.edition then d.edition else b.edition
    pages := if pyTruthyN d.pages then d.pages else b.pages
    summary := if pyStrip (d.summary.getD "") != "" then
        some (pyStrip (d.summary.getD "")) else b.summary
    author_bio := if pyStrip (d.author_bio.getD "") != "" then
        some (pyStrip (d.author_bio.getD "")) else b.author_bio
    language := if pyTruthyS d.language then d.language else b.language
    cip := if pyTruthyS d.cip then d.cip else b.cip }

/-- The `Book(isbn=isbn, title_std=d.title or "", authors_std=",".join(d.authors
or []))` plus `session.flush()`: the fresh row in the found-nothing branch.
The `language` column default `"中文"` applies at flush because the
constructor does not pass `language`. -/
def mkBase (d : Detail) (i : String) (id : Nat) : Book :=
  { id := id, title_std := d.title,
    authors_std := some (String.intercalate "," d.authors),
    isbn := some i, language := some "中文" }

/-- The `Book(...)` constructor of the no-ISBN branch (lines 98–110 of
`app/pipeline.py`): every field passed explicitly. -/
def mkNoIsbn (d : Detail) (id : Nat) : Book :=
  { id := id, title_std := d.title,
    authors_std := some (String.intercalate "," d.authors),
    publisher := d.publisher, pub_year := d.pub_year, isbn := none,
    edition := d.edition, pages := d.pages,
    summary := (if pyStrip (d.summary.getD "") == "" then none
                else some (pyStrip (d.summary.getD ""))),
    author_bio := (if pyStrip (d.author_bio.getD "") == "" then none
                   else some (pyStrip (d.author_bio.getD ""))),
    language := d.language, cip := d.cip }

/-- The `session.query(Book).filter(Book.isbn == isbn).first()` combined with
the in-place ORM mutation: find the first book whose `isbn` equals
`some i`, replace it by `f` of it, and return its index, its new value and
the new table.  `none` when no row matches. -/
def locUpdate (f : Book → Book) (i : String) :
    List Book → Option (Nat × Book × List Book)
  | [] => none
  | b :: bs =>
    if b.isbn = some i then some (0, f b, f b :: bs)
    else
      match locUpdate f i bs with
      | some (k, r, bs2) => some (k + 1, r, b :: bs2)
      | none => none

/-- The `app/pipeline.py` `_get_or_create_book_by_detail`, returning also the
row index of the returned book (the ORM returns the object itself; later
mutations in `search_and_ingest` hit that same row).  With an ISBN: locate
by ISBN and apply the overwrite block, or create a base row (which the
overwrite block then also fills).  Without an ISBN: always create. -/
def locateOrCreate (d : Detail) (st : Store) : Nat × Book × Store :=
  match detailIsbn d with
  | some i =>
    match locUpdate (applyOverwrites d) i st.books with
    | some (k, b2, books2) => (k, b2, { st with books := books2 })
    | none =>
      let b2 := applyOverwrites d (mkBase d i st.nextId)
      (st.books.length, b2,
       { st with books := st.books ++ [b2], nextId := st.nextId + 1 })
  | none =>
    let b2 := mkNoIsbn d st.nextId
    (st.books.length, b2,
     { st with books := st.books ++ [b2], nextId := st.nextId + 1 })

/-- The `_get_or_create_book_by_detail` as the source exposes it: the returned
book object and the session state. -/
def get_or_create_book_by_detail (d : Detail) (st : Store) : Book × Store :=
  let r := locateOrCreate d st
  (r.2.1, r.2.2)

/-- The cover assignment of `search_and_ingest`
(`if rel_cover and not book.cover_path: book.cover_path = rel_cover`). -/
def coverStep (relCover : String) (b : Book) : Book :=
  if relCover != "" && !pyTruthyS b.cover_path then
    { b with cover_path := some relCover }
  else b

/-- The `(book.authors_std or "").split(",") if book.authors_std else []`. -/
def authorsOf (b : Book) : List String :=
  match b.authors_std with
  | none => []
  | some s => if s == "" then [] else splitComma s

/-- The auto-classification of `search_and_ingest`
(`if not book.clc: … classify_clc … ; if code and code.strip():
book.clc = code.strip()`).  `llm` is the outcome of the optional
`classify_llm` network call for the given (title, authors, summary). -/
def clcStep (llm : String → List String → String →
    Option (String × String × Nat × String)) (b : Book) : Book :=
  if !pyTruthyS b.clc then
    let title := b.title_std
    let summary := b.summary.getD ""
    let code := (classify_clc title (authorsOf b) summary b.cip
      (llm title (authorsOf b) summary)).1
    if code != "" && pyStrip code != "" then { b with clc := some (pyStrip code) }
    else b
  else b

/-- The body of the `with session.begin():` block of `search_and_ingest`
(lines 180–207 of `app/pipeline.py`) as one atomic state transformation:
reconcile the detail into a book row, maybe set the cover path, maybe
auto-classify, append one `Source` row, and return the book id.
`fetchCover` is the outcome of the `fetch_cover` download (`""` on failure
or missing url); `llm` as in `clcStep`. -/
def ingestDetail (fetchCover : Option String → String)
    (llm : String → List String → String →
      Option (String × String × Nat × String))
    (site : String) (d : Detail) (st : Store) : Nat × Store :=
  let r := locateOrCreate d st
  let k := r.1
  let b := r.2.1
  let st1 := r.2.2
  let relCover := fetchCover d.cover_url
  let b1 := coverStep relCover b
  let b2 := clcStep llm b1
  let srow : SourceRow := ⟨b.id, site, "", d⟩
  (b.id,
   { books := st1.books.set k b2,
     sources := st1.sources ++ [srow],
     nextId := st1.nextId })

/-- The transaction wrapper: `with session.begin():` commits every write of
the block together, and on failure (`IntegrityError` is the one the source
handles) rolls every one of them back, leaving the store unchanged — the
`except` branch only re-reads.  `commitOk` is the transaction outcome. -/
def ingestTx (fetchCover : Option String → String)
    (llm : String → List String → String →
      Option (String × String × Nat × String))
    (site : String) (d : Detail) (st : Store) (commitOk : Bool) :
    Option Nat × Store :=
  if commitOk then
    let r := ingestDetail fetchCover llm site d st
    (some r.1, r.2)
  else (none, st)

/-- The `detail.isbn.replace("-", "").upper()` — the normalization used by the
ISBN consistency check. -/
def normIsbnCmp (s : String) : String :=
  String.mk ((s.toList.filter fun c => c != '-').map Char.toUpper)

/-- The provider loop of `search_and_ingest` (lines 142–207 of
`app/pipeline.py`).  Each provider's network interaction (ISBN direct
lookup, the multi-candidate keyword search, `get_detail`, and the
`except`-swallowed provider exceptions) is summarized by the `Option
Detail` it produced: `none` is "no result from this provider".  A detail is
then rejected on ISBN mismatch (continue with the next provider), the known
ISBN is backfilled when the provider gave none, and the accepted detail is
ingested, ending the loop with the book id. -/
def search_and_ingest (fetchCover : Option String → String)
    (llm : String → List String → String →
      Option (String × String × Nat × String))
    (isbnInput : Option String) :
    List (String × Option Detail) → Store → Option Nat × Store
  | [], st => (none, st)
  | (site, odetail) :: rest, st =>
    match odetail with
    | none => search_and_ingest fetchCover llm isbnInput rest st
    | some d =>
      if pyTruthyS isbnInput && pyTruthyS d.isbn &&
          normIsbnCmp (d.isbn.getD "") != normIsbnCmp (isbnInput.getD "") then
        search_and_ingest fetchCover llm isbnInput rest st
      else
        let d2 := if pyTruthyS isbnInput && !pyTruthyS d.isbn then
            { d with isbn := isbnInput } else d
        let r := ingestDetail fetchCover llm site d2 st
        (some r.1, r.2)

end BookMeta
namespace BookMeta

/-! ## Concrete fixtures used by the witnesses -/

/-- A cover-fetch outcome that always succeeds. -/
def fcSample : Option String → String := fun _ => "covers/new.jpg"

/-- An LLM classifier outcome that always reports "no result" (the state
with no API key configured). -/
def llmSample : String → List String → String →
    Option (String × String × Nat × String) := fun _ _ _ => none

/-- A detail carrying an ISBN and a publisher. -/
def dPubB : Detail :=
  { title := "T1", authors := ["A1"], publisher := some "B",
    isbn := some "9787020002207" }

/-- The same detail with no publisher value. -/
def dPubNone : Detail :=
  { title := "T1", authors := ["A1"], isbn := some "9787020002207" }

/-- A detail with no ISBN at all. -/
def dNoIsbn : Detail := { title := "T1", authors := ["A1"] }

/-- A detail whose ISBN does not match the known one. -/
def dBad : Detail := { title := "T2", authors := [], isbn := some "9787020002201" }

/-- A detail whose ISBN matches the known one. -/
def dGood : Detail := { title := "T2", authors := [], isbn := some "9787020002207" }

/-- An existing book row with a publisher, a cover and a category. -/
def bSample : Book :=
  { id := 1, title_std := "T1", publisher := some "A",
    isbn := some "9787020002207", cover_path := some "covers/a.jpg",
    clc := some "I" }

/-- A store holding `bSample`. -/
def stSample : Store := { books := [bSample], sources := [], nextId := 2 }

/-- The empty store. -/
def stEmpty : Store := { books := [], sources := [], nextId := 1 }

/-! ## Supporting lemmas -/

theorem applyOverwrites_isbn (d : Detail) (b : Book) :
    (applyOverwrites d b).isbn = b.isbn := rfl

theorem applyOverwrites_id (d : Detail) (b : Book) :
    (applyOverwrites d b).id = b.id := rfl

theorem applyOverwrites_cover_path (d : Detail) (b : Book) :
    (applyOverwrites d b).cover_path = b.cover_path := rfl

theorem applyOverwrites_clc (d : Detail) (b : Book) :
    (applyOverwrites d b).clc = b.clc := rfl

theorem coverStep_id (rel : String) (b : Book) :
    (coverStep rel b).id = b.id := by
  unfold coverStep; split <;> rfl

theorem coverStep_of_truthy (rel : String) (b : Book)
    (h : pyTruthyS b.cover_path = true) : coverStep rel b = b := by
  unfold coverStep
  rw [h]
  simp

theorem clcStep_id (llm : String → List String → String →
    Option (String × String × Nat × String)) (b : Book) :
    (clcStep llm b).id = b.id := by
  unfold clcStep
  split
  · dsimp only
    split <;> rfl
  · rfl

theorem clcStep_cover_path (llm : String → List String → String →
    Option (String × String × Nat × String)) (b : Book) :
    (clcStep llm b).cover_path = b.cover_path := by
  unfold clcStep
  split
  · dsimp only
    split <;> rfl
  · rfl

theorem locUpdate_none_iff (f : Book → Book) (i : String) (l : List Book) :
    locUpdate f i l = none ↔ ∀ b ∈ l, b.isbn ≠ some i := by
  induction l with
  | nil => simp [locUpdate]
  | cons b bs ih =>
    by_cases hb : b.isbn = some i
    · simp [locUpdate, hb]
    · rw [locUpdate, if_neg hb]
      cases hrec : locUpdate f i bs with
      | none =>
        rw [hrec] at ih
        simp only [List.mem_cons]
        constructor
        · intro _ b2 hb2
          rcases hb2 with hb2 | hb2
          · rw [hb2]; exact hb
          · exact ih.mp rfl b2 hb2
        · intro _; trivial
      | some x =>
        obtain ⟨k, r, bs2⟩ := x
        rw [hrec] at ih
        simp only [List.mem_cons]
        constructor
        · intro h; exact absurd h (by simp)
        · intro hall
          exact absurd (ih.mpr fun b2 hb2 => hall b2 (Or.inr hb2)) (by simp)

theorem locUpdate_spec (f : Book → Book) (i : String) :
    ∀ (l : List Book) (k : Nat) (r : Book) (l2 : List Book),
      locUpdate f i l = some (k, r, l2) →
      ∃ b, l[k]? = some b ∧ b.isbn = some i ∧ r = f b ∧ l2 = l.set k (f b) ∧
        ∀ j, j < k → ∀ bj, l[j]? = some bj → bj.isbn ≠ some i := by
  intro l
  induction l with
  | nil => intro k r l2 h; simp [locUpdate] at h
  | cons b bs ih =>
    intro k r l2 h
    by_cases hb : b.isbn = some i
    · rw [locUpdate, if_pos hb] at h
      have hk : k = 0 := by
        have := congrArg (fun o => (Option.map Prod.fst o).getD 0) h
        simpa using this.symm
      subst hk
      have hr : r = f b := by
        have := congrArg (fun o => ((Option.map fun p => p.2.1) o).getD r) h
        simpa using this.symm
      have hl2 : l2 = f b :: bs := by
        have := congrArg (fun o => ((Option.map fun p => p.2.2) o).getD l2) h
        simpa using this.symm
      exact ⟨b, by simp, hb, hr, by simp [hl2], fun j hj => absurd hj (Nat.not_lt_zero j)⟩
    · rw [locUpdate, if_neg hb] at h
      cases hrec : locUpdate f i bs with
      | none => rw [hrec] at h; exact absurd h (by simp)
      | some x =>
        obtain ⟨k1, r1, bs2⟩ := x
        rw [hrec] at h
        simp only [Option.some.injEq, Prod.mk.injEq] at h
        obtain ⟨hk, hr, hl2⟩ := h
        obtain ⟨b0, hb0, hb0i, hr1, hbs2, hpre⟩ := ih k1 r1 bs2 hrec
        refine ⟨b0, ?_, hb0i, ?_, ?_, ?_⟩
        · rw [← hk]; simpa using hb0
        · rw [← hr, hr1]
        · rw [← hl2, hbs2, ← hk]; simp
        · intro j hj bj hbj
          rw [← hk] at hj
          cases j with
          | zero =>
            simp only [List.getElem?_cons_zero, Option.some.injEq] at hbj
            rw [← hbj]; exact hb
          | succ j1 =>
            simp only [List.getElem?_cons_succ] at hbj
            exact hpre j1 (Nat.lt_of_succ_lt_succ hj) bj hbj

theorem locUpdate_eq_some (f : Book → Book) (i : String) :
    ∀ (l : List Book) (k : Nat) (b : Book),
      l[k]? = some b → b.isbn = some i →
      (∀ j, j < k → ∀ bj, l[j]? = some bj → bj.isbn ≠ some i) →
      locUpdate f i l = some (k, f b, l.set k (f b)) := by
  intro l
  induction l with
  | nil => intro k b h; simp at h
  | cons a t ih =>
    intro k b hk hisbn hpre
    cases k with
    | zero =>
      simp only [List.getElem?_cons_zero, Option.some.injEq] at hk
      subst hk
      simp [locUpdate, hisbn]
    | succ k1 =>
      have ha : a.isbn ≠ some i := hpre 0 (Nat.succ_pos _) a (by simp)
      have hrec := ih k1 b (by simpa using hk) hisbn
        (fun j hj bj hbj => hpre (j + 1) (Nat.succ_lt_succ hj) bj (by simpa using hbj))
      rw [locUpdate, if_neg ha, hrec]
      simp

/-- Characterization of `locateOrCreate`: the returned index is a valid row
of the resulting table and holds the returned book; the `sources` table is
untouched; other rows are untouched; and when the index points at a row
that already existed, the returned book is that row with the overwrite
block applied. -/
theorem locateOrCreate_chars (d : Detail) (st : Store) :
    (locateOrCreate d st).1 < (locateOrCreate d st).2.2.books.length ∧
    (locateOrCreate d st).2.2.books[(locateOrCreate d st).1]? =
      some (locateOrCreate d st).2.1 ∧
    (locateOrCreate d st).2.2.sources = st.sources ∧
    (∀ j, j ≠ (locateOrCreate d st).1 →
      (locateOrCreate d st).2.2.books[j]? = st.books[j]?) ∧
    (∀ x, st.books[(locateOrCreate d st).1]? = some x →
      (locateOrCreate d st).2.1 = applyOverwrites d x) := by
  have frameAppend : ∀ (b2 : Book) (j : Nat), j ≠ st.books.length →
      (st.books ++ [b2])[j]? = st.books[j]? := by
    intro b2 j hj
    rcases Nat.lt_trichotomy j st.books.length with h | h | h
    · exact List.getElem?_append_left h
    · exact absurd h hj
    · rw [List.getElem?_eq_none_iff.mpr (by simpa using h),
        List.getElem?_eq_none_iff.mpr (Nat.le_of_lt h)]
  have selfNone : ∀ (x : Book), st.books[st.books.length]? = some x → False := by
    intro x hx
    rw [List.getElem?_eq_none_iff.mpr (Nat.le_refl _)] at hx
    exact Option.noConfusion hx
  cases hI : detailIsbn d with
  | none =>
    simp only [locateOrCreate, hI]
    refine ⟨by simp, by simp, trivial, ?_, ?_⟩
    · intro j hj; exact frameAppend _ j hj
    · intro x hx; exact absurd hx (fun h => selfNone x h)
  | some i =>
    cases hloc : locUpdate (applyOverwrites d) i st.books with
    | none =>
      simp only [locateOrCreate, hI, hloc]
      refine ⟨by simp, by simp, trivial, ?_, ?_⟩
      · intro j hj; exact frameAppend _ j hj
      · intro x hx; exact absurd hx (fun h => selfNone x h)
    | some p =>
      obtain ⟨k, r, l2⟩ := p
      simp only [locateOrCreate, hI, hloc]
      obtain ⟨b0, hb0, hb0i, hr, hl2, hpre⟩ := locUpdate_spec _ _ _ _ _ _ hloc
      have hk : k < st.books.length := (List.getElem?_eq_some.mp hb0).1
      refine ⟨?_, ?_, trivial, ?_, ?_⟩
      · simpa [hl2] using hk
      · rw [hl2, hr]; exact List.getElem?_set_self (by simpa using hk)
      · intro j hj
        rw [hl2]
        exact List.getElem?_set_ne (fun h => hj h.symm)
      · intro x hx
        rw [hb0] at hx
        obtain rfl : b0 = x := Option.some.inj hx
        exact hr

/-- The `ingestDetail` unfolded: the books table with the cover / classification
steps applied at the located row, one appended provenance row, and the book
id as result. -/
theorem ingestDetail_parts (fc : Option String → String)
    (llm : String → List String → String → Option (String × String × Nat × String))
    (site : String) (d : Detail) (st : Store) :
    (ingestDetail fc llm site d st).2.books =
      (locateOrCreate d st).2.2.books.set (locateOrCreate d st).1
        (clcStep llm (coverStep (fc d.cover_url) (locateOrCreate d st).2.1)) ∧
    (ingestDetail fc llm site d st).2.sources =
      (locateOrCreate d st).2.2.sources ++
        [⟨(locateOrCreate d st).2.1.id, site, "", d⟩] ∧
    (ingestDetail fc llm site d st).1 = (locateOrCreate d st).2.1.id := by
  unfold ingestDetail
  exact ⟨rfl, rfl, rfl⟩

/-- The `pick_best` on a score table with every score zero returns the first
key (Python `max` keeps the first maximum). -/
theorem pick_best_all_zero (p : String × Nat) (rest : List (String × Nat))
    (hp : p.2 = 0) (h : ∀ q ∈ rest, q.2 = 0) :
    pick_best (p :: rest) = (p.1, 0) := by
  induction rest generalizing p with
  | nil =>
    obtain ⟨p1, p2⟩ := p
    simp only at hp
    subst hp
    rfl
  | cons q rest ih =>
    have hq : q.2 = 0 := h q (List.mem_cons_self _ _)
    show ((q :: rest).foldl (fun best x => if x.2 > best.2 then x else best) p) = (p.1, 0)
    rw [List.foldl_cons]
    have hstep : (if q.2 > p.2 then q else p) = p := by
      rw [hp, hq]; simp
    rw [hstep]
    exact ih p hp (fun r hr => h r (List.mem_cons_of_mem _ hr))

/-! ## Claim C1 -/

/-- C1, counterexample: `classify_clc("X", [], "", cip="TP391.1")` does not
return the code `"TP391.1"`.  `_CIP_CLC_RE` is
`\b([A-Z])([A-Z0-9]{0,2})(?:\.\d+)?`: on `"TP391.1"` the greedy middle
group takes `"P3"` and the optional decimal suffix cannot match at `"91.1"`,
so the match — and hence the returned code — is `"TP3"`.
(Confidence is in hundredths: `95` is the source's `0.95`.) -/
theorem c1_counterexample :
    (classify_clc "X" [] "" (some "TP391.1") none).1 = "TP3" ∧
    (classify_clc "X" [] "" (some "TP391.1") none).1 ≠ "TP391.1" :=
  ⟨by decide, by decide⟩

/-- C1, amended: whenever the CIP matches the catalog-number pattern, the
classifier returns exactly the text matched by the pattern as the code (for
`"TP391.1"` that matched prefix is `"TP3"`, not `"TP391.1"`), with
confidence 0.95 (`95` in hundredths) and source `"cip"`, regardless of the
keyword content of title/authors/summary and of any external-model
result. -/
theorem c1_cip_priority (title : String) (authors : List String)
    (summary : String) (cip : Option String)
    (llmResult : Option (String × String × Nat × String)) (code : String)
    (h : from_cip cip = some code) :
    classify_clc title authors summary cip llmResult =
      (code, clcLabel (String.mk (code.toList.take 1)), 95, "cip") := by
  unfold classify_clc
  rw [h]

/-- C1 witness: the amended claim at `cip = "TP391.1"`, arbitrary keyword
content `"X"`. -/
theorem c1_cip_priority_witness :
    from_cip (some "TP391.1") = some "TP3" ∧
    classify_clc "X" [] "" (some "TP391.1") none =
      ("TP3", "工业技术", 95, "cip") := by
  refine ⟨by decide, ?_⟩
  rw [c1_cip_priority "X" [] "" (some "TP391.1") none "TP3" (by decide)]
  decide

/-! ## Claim C2 -/

/-- C2, counterexample: on all-empty inputs (no catalog number, no
external-model result) `classify_clc` returns `("Z", …, 0.0, "rule")` —
confidence `0.0` (`0` in hundredths), not the claimed `0.5` (`50`): the
`if not blob` short-circuit of `classify_rule_based` returns confidence
`0.0`. -/
theorem c2_counterexample :
    classify_clc "" [] "" none none = ("Z", "综合性图书", 0, "rule") ∧
    (0 : Nat) ≠ 50 :=
  ⟨by decide, by decide⟩

/-- C2, amended: with no catalog number and no external-model result, when
every category's keyword score is zero the classifier never throws (it is a
total function) and returns: for an all-empty (whitespace-only) blob, the
default category `"Z"` at confidence `0.0`; for a non-empty blob, the
*first* category of the table, `"A"` (`max` keeps the first of the all-zero
ties), at confidence `0.55` (`55` in hundredths, the `score <= 0` branch
for a non-`"Z"` code). -/
theorem c2_zero_scores (t : String) (a : List String) (s : String)
    (h : ∀ p ∈ score_by_keywords (clcBlob t a s), p.2 = 0) :
    classify_clc t a s none none =
      (if clcBlob t a s == "" then ("Z", "综合性图书", 0, "rule")
       else ("A", "马克思主义、列宁主义、毛泽东思想、邓小平理论", 55, "rule")) := by
  obtain ⟨v, tail, heq⟩ :
      ∃ v tail, score_by_keywords (clcBlob t a s) = ("A", v) :: tail :=
    ⟨_, _, rfl⟩
  have hv : v = 0 := h ("A", v) (by rw [heq]; exact List.mem_cons_self _ _)
  have htail : ∀ q ∈ tail, q.2 = 0 :=
    fun q hq => h q (by rw [heq]; exact List.mem_cons_of_mem _ hq)
  show classify_rule_based t a s = _
  unfold classify_rule_based
  cases hb : (clcBlob t a s == "") with
  | true =>
    simp only [hb, if_true]
    rfl
  | false =>
    simp only [hb, Bool.false_eq_true, if_false]
    rw [heq, pick_best_all_zero ("A", v) tail hv htail]
    rfl

/-- C2 witness: the amended claim at `title = "abc"` (a non-empty blob that
hits no keyword). -/
theorem c2_zero_scores_witness :
    (∀ p ∈ score_by_keywords (clcBlob "abc" [] ""), p.2 = 0) ∧
    classify_clc "abc" [] "" none none =
      ("A", "马克思主义、列宁主义、毛泽东思想、邓小平理论", 55, "rule") := by
  refine ⟨by decide, ?_⟩
  rw [c2_zero_scores "abc" [] "" (by decide)]
  decide

/-! ## Claim C3 -/

/-- C3: the dedup/strip helper `_dedup_authors` checks
`a.endswith(("著", "编", "译", "主编"))` but strips only one character
(`a = a[:-1]`): an author entry ending in the two-character role suffix
"主编" (chief editor) loses only its final character, coming back as
`"当年明月主"`, not `"当年明月"` as the spec requires. -/
theorem c3_chief_editor_strip :
    dedup_authors ["当年明月主编"] = ["当年明月主"] := by decide

/-! ## Claim C8 -/

/-- C8: with no entity-extraction backend active (`backend = none`),
`split_title_author("明朝那些事儿 当年明月 著")` returns the title
`"明朝那些事儿"` and authors `["当年明月"]`, and it is the rule fallback's
trailing-role-suffix pattern (pattern (a) of `_heuristic_title_author`)
that produces them: the regex groups are `"明朝那些事儿"` and
`"当年明月 "` (the greedy author group keeps the separating space, which
`.strip()` then removes). -/
theorem c8_splitter_example :
    split_title_author none "明朝那些事儿 当年明月 著" =
      ("明朝那些事儿", ["当年明月"]) ∧
    heuristic_title_author "明朝那些事儿 当年明月 著" =
      ("明朝那些事儿", ["当年明月"]) ∧
    pat1Match (clean_line "明朝那些事儿 当年明月 著").toList =
      some ("明朝那些事儿".toList, "当年明月 ".toList) :=
  ⟨by decide, by decide, by decide⟩

/-! ## Claim C4 -/

/-- C4: reconciliation never duplicates an ISBN.  For a detail whose
normalized ISBN is `i`: when no stored book carries `i` a single new row is
created; when one does, no row is added and the stored row is mutated in
place; and a second reconciliation of another detail with the same ISBN
adds no further row and returns the very book (same row id) produced by the
first. -/
theorem c4_isbn_idempotent (d d2 : Detail) (st : Store) (i : String)
    (h : detailIsbn d = some i) (h2 : detailIsbn d2 = some i) :
    ((∀ b ∈ st.books, b.isbn ≠ some i) →
      (get_or_create_book_by_detail d st).2.books.length = st.books.length + 1) ∧
    ((∃ b ∈ st.books, b.isbn = some i) →
      (get_or_create_book_by_detail d st).2.books.length = st.books.length) ∧
    (get_or_create_book_by_detail d2
        (get_or_create_book_by_detail d st).2).2.books.length =
      (get_or_create_book_by_detail d st).2.books.length ∧
    (get_or_create_book_by_detail d2
        (get_or_create_book_by_detail d st).2).1.id =
      (get_or_create_book_by_detail d st).1.id := by
  cases hloc : locUpdate (applyOverwrites d) i st.books with
  | none =>
    have hb2isbn : (applyOverwrites d (mkBase d i st.nextId)).isbn = some i := by
      rw [applyOverwrites_isbn]; rfl
    have h1 : get_or_create_book_by_detail d st =
        (applyOverwrites d (mkBase d i st.nextId),
         { books := st.books ++ [applyOverwrites d (mkBase d i st.nextId)],
           sources := st.sources, nextId := st.nextId + 1 }) := by
      simp only [get_or_create_book_by_detail, locateOrCreate, h, hloc]
    have happ : locUpdate (applyOverwrites d2) i
        (st.books ++ [applyOverwrites d (mkBase d i st.nextId)]) =
        some (st.books.length,
          applyOverwrites d2 (applyOverwrites d (mkBase d i st.nextId)),
          (st.books ++ [applyOverwrites d (mkBase d i st.nextId)]).set
            st.books.length
            (applyOverwrites d2 (applyOverwrites d (mkBase d i st.nextId)))) := by
      apply locUpdate_eq_some
      · simp
      · exact hb2isbn
      · intro j hj bj hbj
        rw [List.getElem?_append_left hj] at hbj
        exact (locUpdate_none_iff _ _ _).mp hloc bj (List.getElem?_mem hbj)
    have h2call : get_or_create_book_by_detail d2
        (get_or_create_book_by_detail d st).2 =
        (applyOverwrites d2 (applyOverwrites d (mkBase d i st.nextId)),
         { books := (st.books ++ [applyOverwrites d (mkBase d i st.nextId)]).set
             st.books.length
             (applyOverwrites d2 (applyOverwrites d (mkBase d i st.nextId))),
           sources := st.sources, nextId := st.nextId + 1 }) := by
      rw [h1]
      simp only [get_or_create_book_by_detail, locateOrCreate, h2, happ]
    refine ⟨?_, ?_, ?_, ?_⟩
    · intro _
      rw [h1]
      simp
    · intro hex
      obtain ⟨b, hbmem, hbisbn⟩ := hex
      exact absurd hbisbn ((locUpdate_none_iff _ _ _).mp hloc b hbmem)
    · rw [h2call, h1]
      simp
    · rw [h2call, h1]
      exact applyOverwrites_id _ _
  | some p =>
    obtain ⟨k, r, l2⟩ := p
    obtain ⟨b0, hb0, hb0i, hr, hl2, hpre⟩ := locUpdate_spec _ _ _ _ _ _ hloc
    have hk : k < st.books.length := (List.getElem?_eq_some.mp hb0).1
    have h1 : get_or_create_book_by_detail d st =
        (r, { books := l2, sources := st.sources, nextId := st.nextId }) := by
      simp only [get_or_create_book_by_detail, locateOrCreate, h, hloc]
    have hrisbn : r.isbn = some i := by
      rw [hr, applyOverwrites_isbn]; exact hb0i
    have h2loc : locUpdate (applyOverwrites d2) i l2 =
        some (k, applyOverwrites d2 r, l2.set k (applyOverwrites d2 r)) := by
      apply locUpdate_eq_some
      · rw [hl2, hr]
        exact List.getElem?_set_self (by simpa using hk)
      · exact hrisbn
      · intro j hj bj hbj
        rw [hl2, List.getElem?_set_ne (fun hh => (Nat.ne_of_lt hj) hh.symm)] at hbj
        exact hpre j hj bj hbj
    have h2call : get_or_create_book_by_detail d2
        (get_or_create_book_by_detail d st).2 =
        (applyOverwrites d2 r,
         { books := l2.set k (applyOverwrites d2 r),
           sources := st.sources, nextId := st.nextId }) := by
      rw [h1]
      simp only [get_or_create_book_by_detail, locateOrCreate, h2, h2loc]
    refine ⟨?_, ?_, ?_, ?_⟩
    · intro hall
      exact absurd hb0i (hall b0 (List.getElem?_mem hb0))
    · intro _
      rw [h1]
      simp [hl2]
    · rw [h2call, h1]
      simp
    · rw [h2call, h1]
      exact applyOverwrites_id _ _

/-- C4 witness: resolving the ISBN `9787020002207` twice starting from the
empty store leaves exactly one row. -/
theorem c4_isbn_idempotent_witness :
    detailIsbn dPubB = some "9787020002207" ∧
    (get_or_create_book_by_detail dPubB stEmpty).2.books.length = 1 ∧
    (get_or_create_book_by_detail dPubB
        (get_or_create_book_by_detail dPubB stEmpty).2).2.books.length = 1 := by
  have hmain := c4_isbn_idempotent dPubB dPubB stEmpty "9787020002207"
    (by decide) (by decide)
  refine ⟨by decide, ?_, ?_⟩
  · exact (hmain.1 (by decide)).trans (by decide)
  · exact hmain.2.2.1.trans ((hmain.1 (by decide)).trans (by decide))

/-! ## Claim C5 -/

/-- C5: a detail with no (normalized) ISBN always creates a brand-new row —
even twice in a row, for arbitrary (in particular identical) titles — so
two such reconciliations add two rows with distinct ids, and no merging by
title similarity ever happens. -/
theorem c5_no_isbn_always_creates (d d2 : Detail) (st : Store)
    (h : detailIsbn d = none) (h2 : detailIsbn d2 = none) :
    (get_or_create_book_by_detail d st).2.books.length = st.books.length + 1 ∧
    (get_or_create_book_by_detail d2
        (get_or_create_book_by_detail d st).2).2.books.length =
      st.books.length + 2 ∧
    (get_or_create_book_by_detail d st).1.id ≠
      (get_or_create_book_by_detail d2
        (get_or_create_book_by_detail d st).2).1.id ∧
    (get_or_create_book_by_detail d st).1.isbn = none := by
  have h1 : get_or_create_book_by_detail d st =
      (mkNoIsbn d st.nextId,
       { books := st.books ++ [mkNoIsbn d st.nextId],
         sources := st.sources, nextId := st.nextId + 1 }) := by
    simp only [get_or_create_book_by_detail, locateOrCreate, h]
  have h2call : get_or_create_book_by_detail d2
      (get_or_create_book_by_detail d st).2 =
      (mkNoIsbn d2 (st.nextId + 1),
       { books := (st.books ++ [mkNoIsbn d st.nextId]) ++
           [mkNoIsbn d2 (st.nextId + 1)],
         sources := st.sources, nextId := st.nextId + 2 }) := by
    rw [h1]
    simp only [get_or_create_book_by_detail, locateOrCreate, h2]
  refine ⟨?_, ?_, ?_, ?_⟩
  · rw [h1]; simp
  · rw [h2call]; simp
  · rw [h2call, h1]
    show st.nextId ≠ st.nextId + 1
    omega
  · rw [h1]
    rfl

/-- C5 witness: two reconciliations of the same no-ISBN detail (identical
titles) into the empty store yield two rows with the ids 1 and 2. -/
theorem c5_no_isbn_always_creates_witness :
    detailIsbn dNoIsbn = none ∧
    (get_or_create_book_by_detail dNoIsbn
        (get_or_create_book_by_detail dNoIsbn stEmpty).2).2.books.length = 2 ∧
    (get_or_create_book_by_detail dNoIsbn stEmpty).1.id ≠
      (get_or_create_book_by_detail dNoIsbn
        (get_or_create_book_by_detail dNoIsbn stEmpty).2).1.id := by
  have hmain := c5_no_isbn_always_creates dNoIsbn dNoIsbn stEmpty
    (by decide) (by decide)
  exact ⟨by decide, hmain.2.1.trans (by decide), hmain.2.2.1⟩

/-- The `session.query(…).filter(Book.isbn == isbn).first()` agrees with the
locate-and-update traversal: if `find?` locates `b`, `locUpdate` updates
exactly that row. -/
theorem locUpdate_of_find (f : Book → Book) (i : String) :
    ∀ (l : List Book) (b : Book),
      l.find? (fun x => x.isbn == some i) = some b →
      ∃ k, locUpdate f i l = some (k, f b, l.set k (f b)) := by
  intro l
  induction l with
  | nil => intro b hfind; simp at hfind
  | cons a t ih =>
    intro b hfind
    by_cases ha : a.isbn = some i
    · rw [List.find?_cons_of_pos _ (by simpa using ha)] at hfind
      obtain rfl : a = b := Option.some.inj hfind
      exact ⟨0, by simp [locUpdate, ha]⟩
    · rw [List.find?_cons_of_neg _ (by simpa using ha)] at hfind
      obtain ⟨k, hk⟩ := ih b hfind
      refine ⟨k + 1, ?_⟩
      rw [locUpdate, if_neg ha, hk]
      simp

/-! ## Claim C6 -/

/-- C6: when a detail is reconciled into an existing book located by its
normalized ISBN, every optional field is overwritten exactly when the
detail's value is truthy (non-empty; for `summary`/`author_bio` non-empty
after stripping), and `cover_path`, `clc`, `isbn` and the row id are left
untouched.  In particular an empty/absent `publisher` leaves the stored
publisher unchanged and a non-empty one replaces it. -/
theorem c6_nonempty_overwrites (d : Detail) (st : Store) (i : String) (b : Book)
    (h1 : detailIsbn d = some i)
    (h2 : st.books.find? (fun x => x.isbn == some i) = some b) :
    (get_or_create_book_by_detail d st).1.publisher =
      (if pyTruthyS d.publisher then d.publisher else b.publisher) ∧
    (get_or_create_book_by_detail d st).1.pub_year =
      (if pyTruthyN d.pub_year then d.pub_year else b.pub_year) ∧
    (get_or_create_book_by_detail d st).1.edition =
      (if pyTruthyS d.edition then d.edition else b.edition) ∧
    (get_or_create_book_by_detail d st).1.pages =
      (if pyTruthyN d.pages then d.pages else b.pages) ∧
    (get_or_create_book_by_detail d st).1.summary =
      (if pyStrip (d.summary.getD "") != "" then
        some (pyStrip (d.summary.getD "")) else b.summary) ∧
    (get_or_create_book_by_detail d st).1.author_bio =
      (if pyStrip (d.author_bio.getD "") != "" then
        some (pyStrip (d.author_bio.getD "")) else b.author_bio) ∧
    (get_or_create_book_by_detail d st).1.language =
      (if pyTruthyS d.language then d.language else b.language) ∧
    (get_or_create_book_by_detail d st).1.cip =
      (if pyTruthyS d.cip then d.cip else b.cip) ∧
    (get_or_create_book_by_detail d st).1.cover_path = b.cover_path ∧
    (get_or_create_book_by_detail d st).1.clc = b.clc ∧
    (get_or_create_book_by_detail d st).1.isbn = b.isbn ∧
    (get_or_create_book_by_detail d st).1.id = b.id := by
  obtain ⟨k, hk⟩ := locUpdate_of_find (applyOverwrites d) i st.books b h2
  have hgot : (get_or_create_book_by_detail d st).1 = applyOverwrites d b := by
    simp only [get_or_create_book_by_detail, locateOrCreate, h1, hk]
  rw [hgot]
  exact ⟨rfl, rfl, rfl, rfl, rfl, rfl, rfl, rfl, rfl, rfl, rfl, rfl⟩

/-- C6 witness: against a stored book with `publisher = some "A"`, a detail
with `publisher = some "B"` overwrites, and a detail with no publisher
leaves `"A"` in place. -/
theorem c6_nonempty_overwrites_witness :
    (get_or_create_book_by_detail dPubB stSample).1.publisher = some "B" ∧
    (get_or_create_book_by_detail dPubNone stSample).1.publisher = some "A" := by
  constructor
  · exact ((c6_nonempty_overwrites dPubB stSample "9787020002207" bSample
      (by decide) (by decide)).1).trans (by decide)
  · exact ((c6_nonempty_overwrites dPubNone stSample "9787020002207" bSample
      (by decide) (by decide)).1).trans (by decide)

/-! ## Claim C7 -/

/-- C7: when an ISBN is known a priori and a provider's detail carries an
ISBN that differs after normalization (hyphens stripped, upper-cased), the
detail is rejected: the run on `(site, some d) :: rest` equals the run on
`rest` alone — the pipeline proceeds to the next provider, nothing is
persisted from the rejected detail and the resolution does not fail. -/
theorem c7_isbn_mismatch_rejected (fc : Option String → String)
    (llm : String → List String → String →
      Option (String × String × Nat × String))
    (iIn : String) (site : String) (d : Detail)
    (rest : List (String × Option Detail)) (st : Store)
    (h1 : iIn ≠ "") (h2 : pyTruthyS d.isbn = true)
    (h3 : normIsbnCmp (d.isbn.getD "") ≠ normIsbnCmp iIn) :
    search_and_ingest fc llm (some iIn) ((site, some d) :: rest) st =
      search_and_ingest fc llm (some iIn) rest st := by
  have hc : (pyTruthyS (some iIn) && pyTruthyS d.isbn &&
      (normIsbnCmp (d.isbn.getD "") !=
        normIsbnCmp ((some iIn : Option String).getD ""))) = true := by
    have h2b : ¬(d.isbn.getD "" = "") := by simpa [pyTruthyS] using h2
    simp [pyTruthyS, h1, h2b, h3]
  simp only [search_and_ingest]
  rw [hc]
  simp

/-- C7 witness: known ISBN `9787020002207`, first provider returns detail
ISBN `9787020002201` — the run equals the run on the remaining provider
alone, which then succeeds. -/
theorem c7_isbn_mismatch_rejected_witness :
    search_and_ingest fcSample llmSample (some "9787020002207")
        [("douban", some dBad), ("jd", some dGood)] stEmpty =
      search_and_ingest fcSample llmSample (some "9787020002207")
        [("jd", some dGood)] stEmpty ∧
    (search_and_ingest fcSample llmSample (some "9787020002207")
        [("douban", some dBad), ("jd", some dGood)] stEmpty).1 = some 1 := by
  have hmain := c7_isbn_mismatch_rejected fcSample llmSample "9787020002207"
    "douban" dBad [("jd", some dGood)] stEmpty
    (by decide) (by decide) (by decide)
  exact ⟨hmain, hmain ▸ (by decide)⟩

/-! ## Claim C9 -/

/-- C9: all writes of an accepted detail — book row creation/update, cover
and category assignment, and the appended provenance row — happen inside
one `with session.begin():` transaction.  When the transaction commits, the
returned book id names a row of the resulting books table and a provenance
(`Source`) row from this resolution with this provider's site and this
detail's serialized fields; when it fails, the result is `none` and the
store is exactly the pre-transaction store (rollback leaves nothing
behind). -/
theorem c9_transaction_atomic (fc : Option String → String)
    (llm : String → List String → String →
      Option (String × String × Nat × String))
    (site : String) (d : Detail) (st : Store) :
    ((ingestTx fc llm site d st false).1 = none ∧
      (ingestTx fc llm site d st false).2 = st) ∧
    (∃ bid, (ingestTx fc llm site d st true).1 = some bid ∧
      (∃ b ∈ (ingestTx fc llm site d st true).2.books, b.id = bid) ∧
      (∃ srow ∈ (ingestTx fc llm site d st true).2.sources,
        srow.book_id = bid ∧ srow.site = site ∧ srow.extracted = d)) := by
  obtain ⟨hlt, hgetk, hsrc, hframe, hover⟩ := locateOrCreate_chars d st
  obtain ⟨hbooks, hsources, hid⟩ := ingestDetail_parts fc llm site d st
  refine ⟨⟨rfl, rfl⟩, (ingestDetail fc llm site d st).1, rfl, ?_, ?_⟩
  · refine ⟨clcStep llm (coverStep (fc d.cover_url) (locateOrCreate d st).2.1),
      ?_, ?_⟩
    · have hmem : ((ingestDetail fc llm site d st).2.books)[(locateOrCreate d st).1]? =
          some (clcStep llm (coverStep (fc d.cover_url) (locateOrCreate d st).2.1)) := by
        rw [hbooks]
        exact List.getElem?_set_self (by simpa using hlt)
      exact List.getElem?_mem hmem
    · rw [clcStep_id, coverStep_id, hid]
  · refine ⟨⟨(locateOrCreate d st).2.1.id, site, "", d⟩, ?_, hid.symm, rfl, rfl⟩
    show _ ∈ (ingestDetail fc llm site d st).2.sources
    rw [hsources]
    simp

/-! ## Claim C10 -/

/-- C10: the pipeline never replaces a non-empty `cover_path`.  Any stored
book whose `cover_path` is already truthy keeps it verbatim through a whole
ingest of any detail (the reconciliation block does not touch `cover_path`,
and the cover assignment is guarded by `not book.cover_path`); and on a
book with an empty `cover_path` the cover step assigns the freshly fetched
relative path exactly when that fetch produced one — unlike the other
fields, for which a truthy new value always overwrites. -/
theorem c10_cover_never_replaced (fc : Option String → String)
    (llm : String → List String → String →
      Option (String × String × Nat × String))
    (site : String) (d : Detail) (st : Store) (j : Nat) (x : Book)
    (hx : st.books[j]? = some x) (hcov : pyTruthyS x.cover_path = true) :
    (∃ y, ((ingestDetail fc llm site d st).2.books)[j]? = some y ∧
      y.cover_path = x.cover_path) ∧
    (∀ rel b, pyTruthyS b.cover_path = false →
      (coverStep rel b).cover_path =
        (if rel != "" then some rel else b.cover_path)) := by
  obtain ⟨hlt, hgetk, hsrc, hframe, hover⟩ := locateOrCreate_chars d st
  obtain ⟨hbooks, hsources, hid⟩ := ingestDetail_parts fc llm site d st
  constructor
  · by_cases hj : j = (locateOrCreate d st).1
    · subst hj
      have hb : (locateOrCreate d st).2.1 = applyOverwrites d x := hover x hx
      have hcov2 : pyTruthyS (locateOrCreate d st).2.1.cover_path = true := by
        rw [hb, applyOverwrites_cover_path]
        exact hcov
      refine ⟨clcStep llm (coverStep (fc d.cover_url) (locateOrCreate d st).2.1),
        ?_, ?_⟩
      · rw [hbooks]
        exact List.getElem?_set_self (by simpa using hlt)
      · rw [clcStep_cover_path, coverStep_of_truthy _ _ hcov2, hb,
          applyOverwrites_cover_path]
    · refine ⟨x, ?_, rfl⟩
      rw [hbooks, List.getElem?_set_ne (fun hh => hj hh.symm), hframe j hj, hx]
  · intro rel b hb
    unfold coverStep
    rw [hb]
    cases hrel : (rel != "") <;> simp [hrel]

/-- C10 witness: ingesting a detail (with a successfully fetched new cover)
into a store whose matching book already has `cover_path =
some "covers/a.jpg"` leaves that path in place. -/
theorem c10_cover_never_replaced_witness :
    ∃ y, ((ingestDetail fcSample llmSample "douban" dPubB stSample).2.books)[0]? =
        some y ∧
      y.cover_path = some "covers/a.jpg" := by
  have h := (c10_cover_never_replaced fcSample llmSample "douban" dPubB stSample
    0 bSample (by decide) (by decide)).1
  exact h

end BookMeta
